import Mathlib

/-!
Shallow embedding of `library_manager.py` (Mini_Library).

Modelling conventions:
* Python `date` values are modelled as `Int` day numbers; `d1 + timedelta(days = n)`
  becomes `d1 + n` and `(d1 - d2).days` becomes `d1 - d2` (exact for whole dates).
* Python `float` money amounts are modelled as `ℚ`; `round(x, 2)` is modelled by
  `pyRound2` (round to a multiple of 1/100).  On every value exercised in this
  development the product is an exact multiple of 1/100, where all real rounding
  modes agree.
* Python dicts are modelled as insertion-ordered association lists; insertion of a
  fresh key appends, `del` removes the (unique) matching entry, and iteration order
  is list order — matching CPython's ordered dicts.
* The `Loan` objects are shared between `_active_loans` and `_loan_history`
  (mutating one mutates the other).  This aliasing is modelled by storing, in the
  active index, the index of the loan inside the history list; `return_book`'s
  in-place mutation of the loan becomes `List.set` on the history.
* Each public method becomes a function `LibraryState → args → Except LibraryError α × LibraryState`:
  the second component is the state as left behind by the call, so a method that
  mutated before raising would be visibly non-atomic.
-/

namespace MiniLibrary

/-- The four concrete exception classes of `library_manager.py` (the abstract
base `LibraryError` is the whole type). -/
inductive LibraryError where
  | validationError (msg : String)
  | notFoundError (msg : String)
  | alreadyExistsError (msg : String)
  | businessRuleError (msg : String)
deriving DecidableEq, Repr

/-- The error kind, forgetting the message. -/
inductive ErrKind where
  | validationE
  | notFoundE
  | alreadyExistsE
  | businessRuleE
deriving DecidableEq, Repr

def LibraryError.kind : LibraryError → ErrKind
  | .validationError _ => .validationE
  | .notFoundError _ => .notFoundE
  | .alreadyExistsError _ => .alreadyExistsE
  | .businessRuleError _ => .businessRuleE

/-- The kind of the error of a failed call, `none` on success. -/
def errKind? {α : Type} : Except LibraryError α → Option ErrKind
  | .error e => some e.kind
  | .ok _ => none

deriving instance DecidableEq for Except

/-- The `overdue_days` component of a `return_book` result, `none` on failure. -/
def overdueOf? : Except LibraryError (Int × ℚ) → Option Int
  | .ok p => some p.1
  | .error _ => none

/-- `@dataclass Book`. -/
structure Book where
  book_id : String
  title : String
  author : String
  total_copies : Int
  available_copies : Int
deriving DecidableEq, Repr

/-- `@dataclass Reader`. -/
structure Reader where
  reader_id : String
  full_name : String
deriving DecidableEq, Repr

/-- `@dataclass Loan`; `returned_date = None` is `none`. -/
structure Loan where
  book_id : String
  reader_id : String
  borrow_date : Int
  due_date : Int
  returned_date : Option Int := none
deriving DecidableEq, Repr

instance : Inhabited Loan := ⟨⟨"", "", 0, 0, none⟩⟩

/-- `Loan.is_active`. -/
def Loan.is_active (l : Loan) : Bool := l.returned_date.isNone

/-- The state held by a `LibraryManager` object: `fine_per_day`, `books`,
`readers`, `_active_loans` and `_loan_history`.  An active-loan entry pairs the
dict key `(book_id, reader_id)` with the index, in `loan_history`, of the shared
`Loan` object. -/
structure LibraryState where
  fine_per_day : ℚ
  books : List Book
  readers : List Reader
  active_loans : List ((String × String) × Nat)
  loan_history : List Loan
deriving DecidableEq, Repr

/-- `LibraryManager.__init__` after its `fine_per_day < 0` check passed. -/
def initState (fine_per_day : ℚ) : LibraryState :=
  { fine_per_day := fine_per_day
    books := []
    readers := []
    active_loans := []
    loan_history := [] }

/-- `LibraryManager.__init__` including the `ValidationError` on a negative rate. -/
def mkManager (fine_per_day : ℚ) : Except LibraryError LibraryState :=
  if fine_per_day < 0 then
    .error (.validationError "fine_per_day must be non-negative")
  else
    .ok (initState fine_per_day)

/-- Drop leading whitespace characters (helper for `pyStrip`). -/
def dropWs : List Char → List Char
  | [] => []
  | c :: cs => if c.isWhitespace then dropWs cs else c :: cs

/-- Python `str.strip()`: remove leading and trailing whitespace. -/
def pyStrip (s : String) : String :=
  ⟨((dropWs ((dropWs s.data).reverse)).reverse)⟩

/-- Python `str.lower()` (ASCII case folding suffices for this code base). -/
def pyLower (s : String) : String := ⟨s.data.map Char.toLower⟩

/-- `LibraryManager._require_non_empty`: strips and rejects the empty result.
(Error messages are modelled without the surrounding quote characters of the
Python f-strings; no claim depends on quoting.) -/
def require_non_empty (value : String) (field_name : String) :
    Except LibraryError String :=
  let normalized := pyStrip value
  if normalized = "" then
    .error (.validationError (field_name ++ " must be non-empty"))
  else
    .ok normalized

/-- Lookup in the `books` dict (keys are unique in every reachable state). -/
def findBook (st : LibraryState) (book_id : String) : Option Book :=
  st.books.find? (fun b => b.book_id == book_id)

/-- Lookup in the `readers` dict. -/
def findReader (st : LibraryState) (reader_id : String) : Option Reader :=
  st.readers.find? (fun r => r.reader_id == reader_id)

/-- Lookup in the `_active_loans` dict. -/
def findActive (st : LibraryState) (key : String × String) :
    Option ((String × String) × Nat) :=
  st.active_loans.find? (fun e => e.1 == key)

/-- The `Loan` object an active-loan entry points at. -/
def loanOf (st : LibraryState) (e : (String × String) × Nat) : Loan :=
  st.loan_history.getD e.2 default

/-- `LibraryManager.add_book`. -/
def add_book (st : LibraryState) (book_id title author : String)
    (total_copies : Int) : Except LibraryError Book × LibraryState :=
  match require_non_empty book_id "book_id" with
  | .error e => (.error e, st)
  | .ok book_id =>
  match require_non_empty title "title" with
  | .error e => (.error e, st)
  | .ok title =>
  match require_non_empty author "author" with
  | .error e => (.error e, st)
  | .ok author =>
  if total_copies ≤ 0 then
    (.error (.validationError "total_copies must be greater than 0"), st)
  else if (findBook st book_id).isSome then
    (.error (.alreadyExistsError
      ("Book with id " ++ book_id ++ " already exists")), st)
  else
    let book : Book :=
      { book_id := book_id
        title := title
        author := author
        total_copies := total_copies
        available_copies := total_copies }
    (.ok book, { st with books := st.books ++ [book] })

/-- `LibraryManager.register_reader`. -/
def register_reader (st : LibraryState) (reader_id full_name : String) :
    Except LibraryError Reader × LibraryState :=
  match require_non_empty reader_id "reader_id" with
  | .error e => (.error e, st)
  | .ok reader_id =>
  match require_non_empty full_name "full_name" with
  | .error e => (.error e, st)
  | .ok full_name =>
  if (findReader st reader_id).isSome then
    (.error (.alreadyExistsError
      ("Reader with id " ++ reader_id ++ " already exists")), st)
  else
    let reader : Reader := { reader_id := reader_id, full_name := full_name }
    (.ok reader, { st with readers := st.readers ++ [reader] })

/-- `LibraryManager.get_book`. -/
def get_book (st : LibraryState) (book_id : String) :
    Except LibraryError Book × LibraryState :=
  match require_non_empty book_id "book_id" with
  | .error e => (.error e, st)
  | .ok book_id =>
  match findBook st book_id with
  | some book => (.ok book, st)
  | none => (.error (.notFoundError ("Book with id " ++ book_id ++ " not found")), st)

/-- `LibraryManager.get_reader`. -/
def get_reader (st : LibraryState) (reader_id : String) :
    Except LibraryError Reader × LibraryState :=
  match require_non_empty reader_id "reader_id" with
  | .error e => (.error e, st)
  | .ok reader_id =>
  match findReader st reader_id with
  | some reader => (.ok reader, st)
  | none =>
      (.error (.notFoundError ("Reader with id " ++ reader_id ++ " not found")), st)

/-- Is `pat` a prefix of `s` (on character lists)? -/
def isPrefixChars : List Char → List Char → Bool
  | [], _ => true
  | _ :: _, [] => false
  | a :: as, b :: bs => a == b && isPrefixChars as bs

/-- Does `pat` occur as a contiguous substring of `s` (Python `pat in s`)? -/
def containsSub (pat : List Char) : List Char → Bool
  | [] => pat.isEmpty
  | b :: bs => isPrefixChars pat (b :: bs) || containsSub pat bs

/-- Python `needle in haystack` on strings. -/
def strContains (haystack needle : String) : Bool :=
  containsSub needle.data haystack.data

/-- `LibraryManager.search_books`. -/
def search_books (st : LibraryState) (query : String) :
    Except LibraryError (List Book) × LibraryState :=
  match require_non_empty query "query" with
  | .error e => (.error e, st)
  | .ok normalized =>
    let normalized_query := pyLower normalized
    (.ok (st.books.filter (fun book =>
        strContains (pyLower book.title) normalized_query ||
        strContains (pyLower book.author) normalized_query)), st)

/-- `LibraryManager.borrow_book`.  Note: the source builds `key` and the `Loan`
from the *raw* `reader_id` argument (the trimmed id computed inside
`get_reader` is discarded), while `book.book_id` is the trimmed book id. -/
def borrow_book (st : LibraryState) (book_id reader_id : String)
    (borrow_date : Int) (loan_days : Int) :
    Except LibraryError Loan × LibraryState :=
  if loan_days ≤ 0 then
    (.error (.validationError "loan_days must be greater than 0"), st)
  else
  match get_book st book_id with
  | (.error e, st') => (.error e, st')
  | (.ok book, st') =>
  match get_reader st' reader_id with
  | (.error e, st'') => (.error e, st'')
  | (.ok _, st'') =>
  if book.available_copies ≤ 0 then
    (.error (.businessRuleError "No available copies for this book"), st'')
  else
  if (findActive st'' (book.book_id, reader_id)).isSome then
    (.error (.businessRuleError "Reader already has this book on loan"), st'')
  else
    (.ok { book_id := book.book_id
           reader_id := reader_id
           borrow_date := borrow_date
           due_date := borrow_date + loan_days
           returned_date := none },
      { st'' with
        active_loans := st''.active_loans ++
          [((book.book_id, reader_id), st''.loan_history.length)]
        loan_history := st''.loan_history ++
          [{ book_id := book.book_id
             reader_id := reader_id
             borrow_date := borrow_date
             due_date := borrow_date + loan_days
             returned_date := none }]
        books := st''.books.map (fun b =>
          if b.book_id == book.book_id then
            { b with available_copies := b.available_copies - 1 }
          else b) })

/-- `round(x, 2)` on the exact rational value.  (Python rounds the nearest
binary float half-to-even; every amount arising in this development is an exact
multiple of 1/100, where all rounding modes coincide.) -/
def pyRound2 (q : ℚ) : ℚ := ((⌊q * 100 + 1 / 2⌋ : ℤ) : ℚ) / 100

/-- `LibraryManager.return_book`.  `self.books[loan.book_id] += 1` is modelled
by the in-place map; in every reachable state the book exists (see `WF`). -/
def return_book (st : LibraryState) (book_id reader_id : String)
    (return_date : Int) : Except LibraryError (Int × ℚ) × LibraryState :=
  match require_non_empty book_id "book_id" with
  | .error e => (.error e, st)
  | .ok bid =>
  match require_non_empty reader_id "reader_id" with
  | .error e => (.error e, st)
  | .ok rid =>
  match findActive st (bid, rid) with
  | none =>
      (.error (.businessRuleError
        "Active loan for this book and reader was not found"), st)
  | some entry =>
    (.ok (max (return_date - (loanOf st entry).due_date) 0,
          pyRound2 (((max (return_date - (loanOf st entry).due_date) 0 : Int) : ℚ) *
            st.fine_per_day)),
      { st with
        loan_history := st.loan_history.set entry.2
          { loanOf st entry with returned_date := some return_date }
        books := st.books.map (fun b =>
          if b.book_id == (loanOf st entry).book_id then
            { b with available_copies := b.available_copies + 1 }
          else b)
        active_loans := st.active_loans.eraseP (fun e => e.1 == (bid, rid)) })

/-- `LibraryManager.calculate_fine` (reads `self.fine_per_day`, writes nothing). -/
def calculate_fine (st : LibraryState) (due_date return_date : Int) :
    ℚ × LibraryState :=
  let overdue_days : Int := max (return_date - due_date) 0
  (pyRound2 ((overdue_days : ℚ) * st.fine_per_day), st)

/-- `LibraryManager.get_active_loans`: the loan objects of the active index, in
dict order. -/
def get_active_loans (st : LibraryState) : List Loan × LibraryState :=
  (st.active_loans.map (fun e => loanOf st e), st)

/-- `LibraryManager.get_reader_active_loans`. -/
def get_reader_active_loans (st : LibraryState) (reader_id : String) :
    Except LibraryError (List Loan) × LibraryState :=
  match require_non_empty reader_id "reader_id" with
  | .error e => (.error e, st)
  | .ok reader_id =>
  match get_reader st reader_id with
  | (.error e, st') => (.error e, st')
  | (.ok _, st') =>
    (.ok ((st'.active_loans.map (fun e => loanOf st' e)).filter
        (fun loan => loan.reader_id == reader_id)), st')

/-- `LibraryManager.get_loan_history`: a copy of the history list. -/
def get_loan_history (st : LibraryState) : List Loan × LibraryState :=
  (st.loan_history, st)

/-! ### Derived notions used by the specification claims -/

/-- The keys of the active-loan index (dict keys, in insertion order). -/
def activeKeys (st : LibraryState) : List (String × String) :=
  st.active_loans.map Prod.fst

/-- Number of entries of an active-loan index whose key names the book `bid`. -/
def countFor (A : List ((String × String) × Nat)) (bid : String) : Int :=
  ((A.filter (fun e => e.1.1 == bid)).length : Int)

/-- Number of active loans whose `book_id` field is `bid`, counted on the loan
objects exactly as `get_active_loans` returns them. -/
def activeLoanCountFor (st : LibraryState) (bid : String) : Int :=
  ((((get_active_loans st).1).filter (fun l => l.book_id == bid)).length : Int)

/-- One public call to the manager, with its arguments. -/
inductive Op where
  | add_book (book_id title author : String) (total_copies : Int)
  | register_reader (reader_id full_name : String)
  | get_book (book_id : String)
  | get_reader (reader_id : String)
  | search_books (query : String)
  | borrow_book (book_id reader_id : String) (borrow_date loan_days : Int)
  | return_book (book_id reader_id : String) (return_date : Int)
  | calculate_fine (due_date return_date : Int)
  | get_active_loans
  | get_reader_active_loans (reader_id : String)
  | get_loan_history

/-- The state after one public call (the call's return value is discarded). -/
def applyOp (st : LibraryState) : Op → LibraryState
  | .add_book b t a n => (add_book st b t a n).2
  | .register_reader r n => (register_reader st r n).2
  | .get_book b => (get_book st b).2
  | .get_reader r => (get_reader st r).2
  | .search_books q => (search_books st q).2
  | .borrow_book b r d l => (borrow_book st b r d l).2
  | .return_book b r d => (return_book st b r d).2
  | .calculate_fine d1 d2 => (calculate_fine st d1 d2).2
  | .get_active_loans => (get_active_loans st).2
  | .get_reader_active_loans r => (get_reader_active_loans st r).2
  | .get_loan_history => (get_loan_history st).2

/-- The state after a sequence of public calls. -/
def runOps (st : LibraryState) (ops : List Op) : LibraryState :=
  ops.foldl applyOp st

/-- States reachable from a freshly constructed `LibraryManager` by any
sequence of public calls. -/
def Reachable (st : LibraryState) : Prop :=
  ∃ rate st₀ ops, mkManager rate = .ok st₀ ∧ st = runOps st₀ ops

/-- Well-formedness of a manager state: the structural facts that hold in every
reachable state and that the per-claim invariants follow from. -/
structure WF (st : LibraryState) : Prop where
  books_nodup : (st.books.map Book.book_id).Nodup
  keys_nodup : (activeKeys st).Nodup
  idx_nodup : (st.active_loans.map Prod.snd).Nodup
  idx_lt : ∀ e ∈ st.active_loans, e.2 < st.loan_history.length
  entry_loan : ∀ e ∈ st.active_loans,
    (loanOf st e).book_id = e.1.1 ∧ (loanOf st e).reader_id = e.1.2 ∧
      (loanOf st e).returned_date = none
  key_book : ∀ e ∈ st.active_loans, ∃ b ∈ st.books, b.book_id = e.1.1
  conservation : ∀ b ∈ st.books,
    b.available_copies + countFor st.active_loans b.book_id = b.total_copies
  avail_nonneg : ∀ b ∈ st.books, 0 ≤ b.available_copies

/-- `op` is not a (potentially key-inserting) borrow of the active-loan key
`key`.  A successful `borrow_book b r _ _` inserts the key
`(pyStrip b, r)` — the trimmed book id with the *raw* reader id. -/
def notBorrowOf (key : String × String) : Op → Prop
  | .borrow_book b r _ _ => (pyStrip b, r) ≠ key
  | _ => True

/-- The sample data of the repository's test harness: rate 10.0, books `B1`
(2 copies) and `B2` (1 copy), readers `R1` and `R2`. -/
def demoOps : List Op :=
  [.add_book "B1" "Clean Code" "Robert Martin" 2,
   .add_book "B2" "The Pragmatic Programmer" "Andrew Hunt" 1,
   .register_reader "R1" "Ivan Petrov",
   .register_reader "R2" "Anna Sidorova"]

/-- The manager state after running `demoOps` on a fresh manager. -/
def demoState : LibraryState := runOps (initState 10) demoOps

/-- `demoState` after `R1` borrowed `B1` (both ids exactly as stored). -/
def demoBorrowed : LibraryState := (borrow_book demoState "B1" "R1" 0 7).2

/-- Book `B1` as stored in `demoState`. -/
def bookB1 : Book :=
  { book_id := "B1", title := "Clean Code", author := "Robert Martin",
    total_copies := 2, available_copies := 2 }

/-- Book `B1` as stored after one copy was borrowed. -/
def bookB1b : Book :=
  { book_id := "B1", title := "Clean Code", author := "Robert Martin",
    total_copies := 2, available_copies := 1 }

/-- Book `B2` as stored in `demoState`. -/
def bookB2 : Book :=
  { book_id := "B2", title := "The Pragmatic Programmer",
    author := "Andrew Hunt", total_copies := 1, available_copies := 1 }

/-! ### Basic lemmas about the operations -/

lemma require_ok {v : String} (f : String) (h : pyStrip v ≠ "") :
    require_non_empty v f = .ok (pyStrip v) := by
  unfold require_non_empty
  simp [h]

lemma require_err {v : String} (f : String) (h : pyStrip v = "") :
    require_non_empty v f = .error (.validationError (f ++ " must be non-empty")) := by
  unfold require_non_empty
  simp [h]

lemma require_ok_inv {v f w : String} (h : require_non_empty v f = .ok w) :
    pyStrip v = w ∧ pyStrip v ≠ "" := by
  unfold require_non_empty at h
  by_cases hv : pyStrip v = "" <;> simp [hv] at h
  exact ⟨h, hv⟩

lemma findBook_some {st : LibraryState} {bid : String} {bk : Book}
    (h : findBook st bid = some bk) : bk ∈ st.books ∧ bk.book_id = bid := by
  refine ⟨List.mem_of_find?_eq_some h, ?_⟩
  have := List.find?_some h
  simpa [beq_iff_eq] using this

lemma findActive_some {st : LibraryState} {key : String × String}
    {e : (String × String) × Nat} (h : findActive st key = some e) :
    e ∈ st.active_loans ∧ e.1 = key := by
  refine ⟨List.mem_of_find?_eq_some h, ?_⟩
  have := List.find?_some h
  simpa [beq_iff_eq] using this

lemma get_book_snd (st : LibraryState) (b : String) : (get_book st b).2 = st := by
  unfold get_book
  split
  · rfl
  · split <;> rfl

lemma get_reader_snd (st : LibraryState) (r : String) : (get_reader st r).2 = st := by
  unfold get_reader
  split
  · rfl
  · split <;> rfl

lemma search_books_snd (st : LibraryState) (q : String) :
    (search_books st q).2 = st := by
  unfold search_books
  split <;> rfl

lemma get_reader_active_loans_snd (st : LibraryState) (r : String) :
    (get_reader_active_loans st r).2 = st := by
  unfold get_reader_active_loans
  split
  · rfl
  · split
    all_goals rename_i heq
    all_goals have h2 := congrArg Prod.snd heq
    all_goals rw [get_reader_snd] at h2
    all_goals exact h2.symm

lemma get_book_ok {st : LibraryState} {b : String} {bk : Book} {st' : LibraryState}
    (h : get_book st b = (.ok bk, st')) :
    st' = st ∧ pyStrip b ≠ "" ∧ findBook st (pyStrip b) = some bk := by
  unfold get_book at h
  split at h
  · exact absurd h (by simp)
  · rename_i w hw
    obtain ⟨hstrip, hne⟩ := require_ok_inv hw
    subst hstrip
    split at h
    · rename_i bk' hbk
      obtain ⟨h1, h2⟩ := Prod.mk.injEq .. ▸ h
      cases h1
      exact ⟨h2.symm ▸ rfl, hne, hbk⟩
    · exact absurd h (by simp)

lemma get_reader_ok {st : LibraryState} {r : String} {rd : Reader} {st' : LibraryState}
    (h : get_reader st r = (.ok rd, st')) :
    st' = st ∧ pyStrip r ≠ "" ∧ findReader st (pyStrip r) = some rd := by
  unfold get_reader at h
  split at h
  · exact absurd h (by simp)
  · rename_i w hw
    obtain ⟨hstrip, hne⟩ := require_ok_inv hw
    subst hstrip
    split at h
    · rename_i rd' hrd
      obtain ⟨h1, h2⟩ := Prod.mk.injEq .. ▸ h
      cases h1
      exact ⟨h2.symm ▸ rfl, hne, hrd⟩
    · exact absurd h (by simp)

lemma add_book_atomic (st : LibraryState) (b t a : String) (n : Int) :
    errKind? (add_book st b t a n).1 = none ∨ (add_book st b t a n).2 = st := by
  unfold add_book
  split
  · right; rfl
  · split
    · right; rfl
    · split
      · right; rfl
      · split
        · right; rfl
        · split
          · right; rfl
          · left; rfl

lemma register_reader_atomic (st : LibraryState) (r n : String) :
    errKind? (register_reader st r n).1 = none ∨ (register_reader st r n).2 = st := by
  unfold register_reader
  split
  · right; rfl
  · split
    · right; rfl
    · split
      · right; rfl
      · left; rfl

lemma borrow_book_atomic (st : LibraryState) (b r : String) (bd ld : Int) :
    errKind? (borrow_book st b r bd ld).1 = none ∨
      (borrow_book st b r bd ld).2 = st := by
  unfold borrow_book
  split
  · right; rfl
  · split
    · rename_i heq
      right
      have h2 := congrArg Prod.snd heq
      rw [get_book_snd] at h2
      exact h2.symm
    · rename_i book st' heq
      have hst' : st' = st := by
        have h2 := congrArg Prod.snd heq
        rw [get_book_snd] at h2
        exact h2.symm
      split
      · rename_i heq2
        right
        have h2 := congrArg Prod.snd heq2
        rw [get_reader_snd] at h2
        exact h2.symm.trans hst'
      · rename_i rd st'' heq2
        have hst'' : st'' = st := by
          have h2 := congrArg Prod.snd heq2
          rw [get_reader_snd] at h2
          exact h2.symm.trans hst'
        split
        · right; exact hst''
        · split
          · right; exact hst''
          · left; rfl

lemma return_book_atomic (st : LibraryState) (b r : String) (d : Int) :
    errKind? (return_book st b r d).1 = none ∨ (return_book st b r d).2 = st := by
  unfold return_book
  split
  · right; rfl
  · split
    · right; rfl
    · split
      · right; rfl
      · left; rfl

lemma add_book_ok {st : LibraryState} {b t a : String} {n : Int} {bk : Book}
    {st₁ : LibraryState} (h : add_book st b t a n = (.ok bk, st₁)) :
    pyStrip b ≠ "" ∧ ¬ n ≤ 0 ∧ findBook st (pyStrip b) = none ∧
    bk = { book_id := pyStrip b, title := pyStrip t, author := pyStrip a,
           total_copies := n, available_copies := n } ∧
    st₁ = { st with books := st.books ++ [bk] } := by
  unfold add_book at h
  split at h
  · exact absurd h (by simp)
  · rename_i b' hb
    obtain ⟨hbs, hbne⟩ := require_ok_inv hb
    subst hbs
    split at h
    · exact absurd h (by simp)
    · rename_i t' ht
      obtain ⟨hts, htne⟩ := require_ok_inv ht
      subst hts
      split at h
      · exact absurd h (by simp)
      · rename_i a' ha
        obtain ⟨has, hane⟩ := require_ok_inv ha
        subst has
        split at h
        · exact absurd h (by simp)
        · split at h
          · exact absurd h (by simp)
          · rename_i hn hfind
            obtain ⟨h1, h2⟩ := Prod.mk.injEq .. ▸ h
            cases h1
            exact ⟨hbne, hn, by simpa using hfind, rfl, h2.symm⟩

lemma register_reader_ok {st : LibraryState} {r n : String} {rd : Reader}
    {st₁ : LibraryState} (h : register_reader st r n = (.ok rd, st₁)) :
    pyStrip r ≠ "" ∧ findReader st (pyStrip r) = none ∧
    rd = { reader_id := pyStrip r, full_name := pyStrip n } ∧
    st₁ = { st with readers := st.readers ++ [rd] } := by
  unfold register_reader at h
  split at h
  · exact absurd h (by simp)
  · rename_i r' hr
    obtain ⟨hrs, hrne⟩ := require_ok_inv hr
    subst hrs
    split at h
    · exact absurd h (by simp)
    · rename_i n' hn
      obtain ⟨hns, hnne⟩ := require_ok_inv hn
      subst hns
      split at h
      · exact absurd h (by simp)
      · rename_i hfind
        obtain ⟨h1, h2⟩ := Prod.mk.injEq .. ▸ h
        cases h1
        exact ⟨hrne, by simpa using hfind, rfl, h2.symm⟩

lemma borrow_book_ok {st : LibraryState} {b r : String} {bd ld : Int}
    {loan : Loan} {st₁ : LibraryState}
    (h : borrow_book st b r bd ld = (.ok loan, st₁)) :
    ∃ book, ¬ ld ≤ 0 ∧ pyStrip b ≠ "" ∧
      findBook st (pyStrip b) = some book ∧ book.book_id = pyStrip b ∧
      (findReader st (pyStrip r)).isSome ∧ pyStrip r ≠ "" ∧
      ¬ book.available_copies ≤ 0 ∧
      findActive st (pyStrip b, r) = none ∧
      loan = { book_id := pyStrip b, reader_id := r, borrow_date := bd,
               due_date := bd + ld, returned_date := none } ∧
      st₁ = { st with
        active_loans := st.active_loans ++ [((pyStrip b, r), st.loan_history.length)]
        loan_history := st.loan_history ++ [loan]
        books := st.books.map (fun bk =>
          if bk.book_id == pyStrip b then
            { bk with available_copies := bk.available_copies - 1 }
          else bk) } := by
  unfold borrow_book at h
  split at h
  · exact absurd h (by simp)
  · rename_i hld
    split at h
    · exact absurd h (by simp)
    · rename_i book st' heq
      obtain ⟨hst', hbne, hfb⟩ := get_book_ok heq
      subst hst'
      have hbid : book.book_id = pyStrip b := (findBook_some hfb).2
      split at h
      · exact absurd h (by simp)
      · rename_i rd st'' heq2
        obtain ⟨hst'', hrne, hfr⟩ := get_reader_ok heq2
        subst hst''
        split at h
        · exact absurd h (by simp)
        · split at h
          · exact absurd h (by simp)
          · rename_i hav hkey
            obtain ⟨h1, h2⟩ := Prod.mk.injEq .. ▸ h
            cases h1
            refine ⟨book, hld, hbne, hfb, hbid, by simp [hfr], hrne, hav, ?_, ?_, ?_⟩
            · rw [hbid] at hkey
              simpa using hkey
            · rw [hbid]
            · rw [← h2, hbid]

lemma return_book_ok {st : LibraryState} {b r : String} {d : Int}
    {od : Int} {fine : ℚ} {st₁ : LibraryState}
    (h : return_book st b r d = (.ok (od, fine), st₁)) :
    ∃ entry, pyStrip b ≠ "" ∧ pyStrip r ≠ "" ∧
      findActive st (pyStrip b, pyStrip r) = some entry ∧
      od = max (d - (loanOf st entry).due_date) 0 ∧
      fine = pyRound2 ((od : ℚ) * st.fine_per_day) ∧
      st₁ = { st with
        loan_history := st.loan_history.set entry.2
          { loanOf st entry with returned_date := some d }
        books := st.books.map (fun bk =>
          if bk.book_id == (loanOf st entry).book_id then
            { bk with available_copies := bk.available_copies + 1 }
          else bk)
        active_loans :=
          st.active_loans.eraseP (fun e => e.1 == (pyStrip b, pyStrip r)) } := by
  unfold return_book at h
  split at h
  · exact absurd h (by simp)
  · rename_i b' hb
    obtain ⟨hbs, hbne⟩ := require_ok_inv hb
    subst hbs
    split at h
    · exact absurd h (by simp)
    · rename_i r' hr
      obtain ⟨hrs, hrne⟩ := require_ok_inv hr
      subst hrs
      split at h
      · exact absurd h (by simp)
      · rename_i entry hentry
        obtain ⟨h1, h2⟩ := Prod.mk.injEq .. ▸ h
        obtain ⟨hod, hfine⟩ : od = max (d - (loanOf st entry).due_date) 0 ∧
            fine = pyRound2 (((max (d - (loanOf st entry).due_date) 0 : Int) : ℚ) *
              st.fine_per_day) := by
          have := h1.symm
          simp only [Except.ok.injEq, Prod.mk.injEq] at this
          exact ⟨this.1, this.2⟩
        refine ⟨entry, hbne, hrne, hentry, hod, ?_, ?_⟩
        · rw [hfine, hod]
        · exact h2.symm

/-! ### List-level helper lemmas -/

lemma getD_append_left {α : Type} {l l' : List α} {n : Nat} (h : n < l.length)
    (d : α) : (l ++ l').getD n d = l.getD n d := by
  simp [List.getD_eq_getElem?_getD, List.getElem?_append, h]

lemma getD_concat_length {α : Type} (l : List α) (a d : α) :
    (l ++ [a]).getD l.length d = a := by
  simp [List.getD_eq_getElem?_getD, List.getElem?_concat_length]

lemma getD_set_self {α : Type} {l : List α} {n : Nat} (h : n < l.length)
    (a d : α) : (l.set n a).getD n d = a := by
  simp [List.getD_eq_getElem?_getD, List.getElem?_set_self, h]

lemma getD_set_ne {α : Type} {l : List α} {n m : Nat} (h : n ≠ m) (a d : α) :
    (l.set n a).getD m d = l.getD m d := by
  simp [List.getD_eq_getElem?_getD, List.getElem?_set_ne h]

lemma countFor_concat (A : List ((String × String) × Nat))
    (e : (String × String) × Nat) (bid : String) :
    countFor (A ++ [e]) bid =
      countFor A bid + (if e.1.1 == bid then 1 else 0) := by
  by_cases h : e.1.1 == bid <;> simp [countFor, List.filter_append, h]

lemma countFor_eq_zero {A : List ((String × String) × Nat)} {bid : String}
    (h : ∀ e ∈ A, e.1.1 ≠ bid) : countFor A bid = 0 := by
  have : A.filter (fun e => e.1.1 == bid) = [] := by
    simp only [List.filter_eq_nil_iff]
    intro e he
    simpa [beq_iff_eq] using h e he
  simp [countFor, this]

lemma find?_key_decomp {A : List ((String × String) × Nat)}
    {key : String × String} {entry : (String × String) × Nat}
    (hfind : A.find? (fun e => e.1 == key) = some entry) :
    ∃ l₁ l₂, (∀ b ∈ l₁, ¬(b.1 == key) = true) ∧ A = l₁ ++ entry :: l₂ ∧
      A.eraseP (fun e => e.1 == key) = l₁ ++ l₂ := by
  have hmem := List.mem_of_find?_eq_some hfind
  have hp := List.find?_some hfind
  obtain ⟨a, l₁, l₂, hnl₁, hpa, hA, hE⟩ :=
    @List.exists_of_eraseP _ (fun e => e.1 == key) _ _ hmem hp
  have hfind' : A.find? (fun e => e.1 == key) = some a := by
    rw [hA, List.find?_append]
    have h1 : l₁.find? (fun e => e.1 == key) = none :=
      List.find?_eq_none.2 hnl₁
    simp [h1, List.find?_cons_of_pos, hpa]
  rw [hfind] at hfind'
  cases hfind'
  exact ⟨l₁, l₂, hnl₁, hA, hE⟩

lemma eraseP_key_not_mem {A : List ((String × String) × Nat)}
    {key : String × String} {entry : (String × String) × Nat}
    (hnd : (A.map Prod.fst).Nodup)
    (hfind : A.find? (fun e => e.1 == key) = some entry) :
    ∀ e ∈ A.eraseP (fun e => e.1 == key), e.1 ≠ key := by
  obtain ⟨l₁, l₂, hnl₁, hA, hE⟩ := find?_key_decomp hfind
  have hekey : entry.1 = key := by
    simpa [beq_iff_eq] using List.find?_some hfind
  intro e he hekey'
  rw [hE] at he
  rcases List.mem_append.1 he with h1 | h2
  · exact hnl₁ e h1 (by simp [beq_iff_eq, hekey'])
  · have : (entry.1 :: (l₁.map Prod.fst ++ l₂.map Prod.fst)).Nodup := by
      have := hA ▸ hnd
      simpa [List.nodup_middle] using this
    have hnotin := (List.nodup_cons.1 this).1
    exact hnotin (by
      rw [hekey, ← hekey']
      exact List.mem_append.2 (Or.inr (List.mem_map_of_mem Prod.fst h2)))

lemma countFor_eraseP {A : List ((String × String) × Nat)}
    {key : String × String} {entry : (String × String) × Nat}
    (hfind : A.find? (fun e => e.1 == key) = some entry) (bid : String) :
    countFor (A.eraseP (fun e => e.1 == key)) bid =
      countFor A bid - (if key.1 == bid then 1 else 0) := by
  obtain ⟨l₁, l₂, hnl₁, hA, hE⟩ := find?_key_decomp hfind
  have hekey : entry.1 = key := by
    simpa [beq_iff_eq] using List.find?_some hfind
  rw [hE, hA]
  by_cases h : key.1 == bid
  · simp [countFor, List.filter_append, List.filter_cons, hekey, h]
    ring
  · simp [countFor, List.filter_append, List.filter_cons, hekey, h]

/-! ### Preservation of well-formedness -/

lemma WF_init (rate : ℚ) : WF (initState rate) := by
  refine ⟨?_, ?_, ?_, ?_, ?_, ?_, ?_, ?_⟩ <;> simp [initState, activeKeys]

lemma findBook_none_not_mem {st : LibraryState} {bid : String}
    (h : findBook st bid = none) : ∀ x ∈ st.books, x.book_id ≠ bid := by
  intro x hx
  have := List.find?_eq_none.1 h x hx
  simpa [beq_iff_eq] using this

lemma WF_add_book {st : LibraryState} (wf : WF st) (b t a : String) (n : Int) :
    WF (add_book st b t a n).2 := by
  cases hres : (add_book st b t a n).1 with
  | error e =>
      rcases add_book_atomic st b t a n with h | h
      · rw [hres] at h; simp [errKind?] at h
      · rw [h]; exact wf
  | ok bk =>
      have hab : add_book st b t a n = (.ok bk, (add_book st b t a n).2) := by
        rw [← hres]
      obtain ⟨hbne, hn, hfind, hbk, hst₁⟩ := add_book_ok hab
      rw [hst₁]
      have hnotin := findBook_none_not_mem hfind
      refine ⟨?_, wf.keys_nodup, wf.idx_nodup, wf.idx_lt, wf.entry_loan, ?_, ?_, ?_⟩
      · rw [List.map_append, List.nodup_append]
        refine ⟨wf.books_nodup, by simp, ?_⟩
        intro y hy hy2
        obtain ⟨x, hx, hxy⟩ := List.mem_map.1 hy
        simp only [List.map_cons, List.map_nil, List.mem_singleton] at hy2
        apply hnotin x hx
        rw [hxy, hy2, hbk]
      · intro e he
        obtain ⟨bb, hbb, hid⟩ := wf.key_book e he
        exact ⟨bb, List.mem_append.2 (Or.inl hbb), hid⟩
      · intro bb hbb
        rcases List.mem_append.1 hbb with hm | hm
        · exact wf.conservation bb hm
        · simp only [List.mem_singleton] at hm
          subst hm
          have hzero : countFor st.active_loans bb.book_id = 0 := by
            apply countFor_eq_zero
            intro e he heqid
            obtain ⟨bb2, hbb2, hid2⟩ := wf.key_book e he
            apply hnotin bb2 hbb2
            rw [hid2, heqid, hbk]
          rw [hzero, hbk]
          ring
      · intro bb hbb
        rcases List.mem_append.1 hbb with hm | hm
        · exact wf.avail_nonneg bb hm
        · simp only [List.mem_singleton] at hm
          subst hm
          rw [hbk]
          simp only []
          omega

lemma WF_register_reader {st : LibraryState} (wf : WF st) (r n : String) :
    WF (register_reader st r n).2 := by
  cases hres : (register_reader st r n).1 with
  | error e =>
      rcases register_reader_atomic st r n with h | h
      · rw [hres] at h; simp [errKind?] at h
      · rw [h]; exact wf
  | ok rd =>
      have hab : register_reader st r n = (.ok rd, (register_reader st r n).2) := by
        rw [← hres]
      obtain ⟨hrne, hfind, hrd, hst₁⟩ := register_reader_ok hab
      rw [hst₁]
      exact ⟨wf.books_nodup, wf.keys_nodup, wf.idx_nodup, wf.idx_lt,
        wf.entry_loan, wf.key_book, wf.conservation, wf.avail_nonneg⟩

lemma WF_borrow_book {st : LibraryState} (wf : WF st) (b r : String)
    (bd ld : Int) : WF (borrow_book st b r bd ld).2 := by
  cases hres : (borrow_book st b r bd ld).1 with
  | error e =>
      rcases borrow_book_atomic st b r bd ld with h | h
      · rw [hres] at h; simp [errKind?] at h
      · rw [h]; exact wf
  | ok loan =>
      have hab : borrow_book st b r bd ld = (.ok loan, (borrow_book st b r bd ld).2) := by
        rw [← hres]
      obtain ⟨book, hld, hbne, hfb, hbid, hrex, hrne, hav, hkey, hloan, hst₁⟩ :=
        borrow_book_ok hab
      rw [hst₁]
      have hbookmem : book ∈ st.books := (findBook_some hfb).1
      have hkeynot : ∀ e ∈ st.active_loans, e.1 ≠ (pyStrip b, r) := by
        intro e he
        have := List.find?_eq_none.1 hkey e he
        simpa [beq_iff_eq] using this
      have hids : (st.books.map (fun bk =>
          if bk.book_id == pyStrip b then
            { bk with available_copies := bk.available_copies - 1 }
          else bk)).map Book.book_id = st.books.map Book.book_id := by
        rw [List.map_map]
        refine List.map_congr_left ?_
        intro x _
        simp only [Function.comp]
        split <;> rfl
      refine ⟨?_, ?_, ?_, ?_, ?_, ?_, ?_, ?_⟩
      · rw [hids]; exact wf.books_nodup
      · simp only [activeKeys, List.map_append, List.map_cons, List.map_nil]
        rw [List.nodup_append]
        refine ⟨wf.keys_nodup, by simp, ?_⟩
        intro y hy hy2
        simp only [List.mem_singleton] at hy2
        obtain ⟨e, he, hey⟩ := List.mem_map.1 hy
        exact hkeynot e he (hey.symm ▸ hy2 ▸ rfl)
      · simp only [List.map_append, List.map_cons, List.map_nil]
        rw [List.nodup_append]
        refine ⟨wf.idx_nodup, by simp, ?_⟩
        intro y hy hy2
        simp only [List.mem_singleton] at hy2
        obtain ⟨e, he, hey⟩ := List.mem_map.1 hy
        have := wf.idx_lt e he
        omega
      · intro e he
        rcases List.mem_append.1 he with hm | hm
        · have := wf.idx_lt e hm
          simp only [List.length_append, List.length_cons, List.length_nil]
          omega
        · simp only [List.mem_singleton] at hm
          subst hm
          simp only [List.length_append, List.length_cons, List.length_nil]
          omega
      · intro e he
        rcases List.mem_append.1 he with hm | hm
        · have hlt := wf.idx_lt e hm
          have hsame : loanOf { st with
              active_loans := st.active_loans ++ [((pyStrip b, r), st.loan_history.length)]
              loan_history := st.loan_history ++ [loan]
              books := st.books.map (fun bk =>
                if bk.book_id == pyStrip b then
                  { bk with available_copies := bk.available_copies - 1 }
                else bk) } e = loanOf st e := by
            simp only [loanOf]
            exact getD_append_left hlt default
          rw [hsame]
          exact wf.entry_loan e hm
        · simp only [List.mem_singleton] at hm
          subst hm
          simp only [loanOf]
          rw [getD_concat_length]
          rw [hloan]
          exact ⟨rfl, rfl, rfl⟩
      · intro e he
        rcases List.mem_append.1 he with hm | hm
        · obtain ⟨bb, hbb, hid⟩ := wf.key_book e hm
          refine ⟨if bb.book_id == pyStrip b then
              { bb with available_copies := bb.available_copies - 1 }
            else bb, List.mem_map_of_mem _ hbb, ?_⟩
          split <;> simpa using hid
        · simp only [List.mem_singleton] at hm
          subst hm
          refine ⟨if book.book_id == pyStrip b then
              { book with available_copies := book.available_copies - 1 }
            else book, List.mem_map_of_mem _ hbookmem, ?_⟩
          split <;> simpa using hbid
      · intro bb hbb
        obtain ⟨x, hx, hxbb⟩ := List.mem_map.1 hbb
        have hc := wf.conservation x hx
        subst hxbb
        rw [countFor_concat]
        split
        · rename_i hP
          have hid : x.book_id = pyStrip b := beq_iff_eq.1 hP
          have h2 : ((((pyStrip b, r), st.loan_history.length).1.1 ==
              x.book_id)) = true := by
            simp [beq_iff_eq, hid]
          simp only [h2, if_true]
          omega
        · rename_i hP
          have hid : x.book_id ≠ pyStrip b := fun hcon => hP (beq_iff_eq.2 hcon)
          have h2 : ((((pyStrip b, r), st.loan_history.length).1.1 ==
              x.book_id)) = false := by
            simp only [beq_eq_false_iff_ne, ne_eq]
            exact fun hcon => hid hcon.symm
          simp only [h2, Bool.false_eq_true, if_false]
          omega
      · intro bb hbb
        obtain ⟨x, hx, hxbb⟩ := List.mem_map.1 hbb
        subst hxbb
        split
        · rename_i hP
          have hid : x.book_id = pyStrip b := beq_iff_eq.1 hP
          have hxeq : x = book := by
            refine List.inj_on_of_nodup_map wf.books_nodup hx hbookmem ?_
            rw [hid, hbid]
          subst hxeq
          dsimp only
          omega
        · exact wf.avail_nonneg x hx

lemma WF_return_book {st : LibraryState} (wf : WF st) (b r : String) (d : Int) :
    WF (return_book st b r d).2 := by
  cases hres : (return_book st b r d).1 with
  | error e =>
      rcases return_book_atomic st b r d with h | h
      · rw [hres] at h; simp [errKind?] at h
      · rw [h]; exact wf
  | ok res =>
      rcases res with ⟨od, fine⟩
      have hab : return_book st b r d = (.ok (od, fine), (return_book st b r d).2) := by
        rw [← hres]
      obtain ⟨entry, hbne, hrne, hentry, hod, hfine, hst₁⟩ := return_book_ok hab
      rw [hst₁]
      obtain ⟨hmem, hek⟩ := findActive_some hentry
      obtain ⟨hLbid, hLrid, hLret⟩ := wf.entry_loan entry hmem
      have hlt := wf.idx_lt entry hmem
      have hfind' : st.active_loans.find? (fun e => e.1 == (pyStrip b, pyStrip r)) =
          some entry := hentry
      have hids : (st.books.map (fun bk =>
          if bk.book_id == (loanOf st entry).book_id then
            { bk with available_copies := bk.available_copies + 1 }
          else bk)).map Book.book_id = st.books.map Book.book_id := by
        rw [List.map_map]
        refine List.map_congr_left ?_
        intro x _
        simp only [Function.comp]
        split <;> rfl
      refine ⟨?_, ?_, ?_, ?_, ?_, ?_, ?_, ?_⟩
      · rw [hids]; exact wf.books_nodup
      · exact List.Nodup.sublist
          (List.Sublist.map Prod.fst (List.eraseP_sublist _)) wf.keys_nodup
      · exact List.Nodup.sublist
          (List.Sublist.map Prod.snd (List.eraseP_sublist _)) wf.idx_nodup
      · intro e he
        simp only [List.length_set]
        exact wf.idx_lt e (List.mem_of_mem_eraseP he)
      · intro e he
        have heA := List.mem_of_mem_eraseP he
        have hkeyne : e.1 ≠ (pyStrip b, pyStrip r) :=
          eraseP_key_not_mem wf.keys_nodup hfind' e he
        have hidxne : entry.2 ≠ e.2 := by
          intro hcon
          have hEe : e = entry :=
            List.inj_on_of_nodup_map wf.idx_nodup heA hmem hcon.symm
          rw [hEe] at hkeyne
          exact hkeyne hek
        have hsame : loanOf { st with
            loan_history := st.loan_history.set entry.2
              { loanOf st entry with returned_date := some d }
            books := st.books.map (fun bk =>
              if bk.book_id == (loanOf st entry).book_id then
                { bk with available_copies := bk.available_copies + 1 }
              else bk)
            active_loans := st.active_loans.eraseP
              (fun e => e.1 == (pyStrip b, pyStrip r)) } e = loanOf st e := by
          simp only [loanOf]
          exact getD_set_ne hidxne _ _
        rw [hsame]
        exact wf.entry_loan e heA
      · intro e he
        obtain ⟨bb, hbb, hid⟩ := wf.key_book e (List.mem_of_mem_eraseP he)
        refine ⟨if bb.book_id == (loanOf st entry).book_id then
            { bb with available_copies := bb.available_copies + 1 }
          else bb, List.mem_map_of_mem _ hbb, ?_⟩
        split <;> simpa using hid
      · intro bb hbb
        obtain ⟨x, hx, hxbb⟩ := List.mem_map.1 hbb
        have hc := wf.conservation x hx
        subst hxbb
        rw [countFor_eraseP hfind']
        split
        · rename_i hP
          have hid : x.book_id = (loanOf st entry).book_id := beq_iff_eq.1 hP
          have h2 : (((pyStrip b, pyStrip r)).1 == x.book_id) = true := by
            have : x.book_id = pyStrip b := by
              rw [hid, hLbid, hek]
            simp [beq_iff_eq, this]
          simp only [h2, if_true]
          omega
        · rename_i hP
          have hid : x.book_id ≠ (loanOf st entry).book_id :=
            fun hcon => hP (beq_iff_eq.2 hcon)
          have h2 : (((pyStrip b, pyStrip r)).1 == x.book_id) = false := by
            simp only [beq_eq_false_iff_ne, ne_eq]
            intro hcon
            apply hid
            rw [hLbid, hek, ← hcon]
          simp only [h2, Bool.false_eq_true, if_false]
          omega
      · intro bb hbb
        obtain ⟨x, hx, hxbb⟩ := List.mem_map.1 hbb
        have ha := wf.avail_nonneg x hx
        subst hxbb
        split
        · dsimp only
          omega
        · exact ha

lemma WF_applyOp {st : LibraryState} (wf : WF st) (op : Op) :
    WF (applyOp st op) := by
  cases op with
  | add_book b t a n => exact WF_add_book wf b t a n
  | register_reader r n => exact WF_register_reader wf r n
  | get_book b =>
      have h := get_book_snd st b
      simpa [applyOp, h] using wf
  | get_reader r =>
      have h := get_reader_snd st r
      simpa [applyOp, h] using wf
  | search_books q =>
      have h := search_books_snd st q
      simpa [applyOp, h] using wf
  | borrow_book b r bd ld => exact WF_borrow_book wf b r bd ld
  | return_book b r d => exact WF_return_book wf b r d
  | calculate_fine d1 d2 => exact wf
  | get_active_loans => exact wf
  | get_reader_active_loans r =>
      have h := get_reader_active_loans_snd st r
      simpa [applyOp, h] using wf
  | get_loan_history => exact wf

lemma WF_runOps {st : LibraryState} (wf : WF st) (ops : List Op) :
    WF (runOps st ops) := by
  induction ops generalizing st with
  | nil => exact wf
  | cons op ops ih => exact ih (WF_applyOp wf op)

lemma mkManager_ok {rate : ℚ} {st₀ : LibraryState}
    (h : mkManager rate = .ok st₀) : st₀ = initState rate := by
  unfold mkManager at h
  split at h
  · exact absurd h (by simp)
  · simpa using h.symm

lemma Reachable.wf {st : LibraryState} (h : Reachable st) : WF st := by
  obtain ⟨rate, st₀, ops, hmk, hst⟩ := h
  rw [hst, mkManager_ok hmk]
  exact WF_runOps (WF_init rate) ops

lemma key_not_mem_applyOp {st : LibraryState} {key : String × String}
    (hkey : findActive st key = none) (op : Op) (hop : notBorrowOf key op) :
    findActive (applyOp st op) key = none := by
  cases op with
  | add_book b t a n =>
      cases hres : (add_book st b t a n).1 with
      | error e =>
          rcases add_book_atomic st b t a n with h | h
          · rw [hres] at h; simp [errKind?] at h
          · show findActive (add_book st b t a n).2 key = none
            rw [h]; exact hkey
      | ok bk =>
          obtain ⟨_, _, _, _, hst₁⟩ := add_book_ok (by rw [← hres] :
            add_book st b t a n = (.ok bk, (add_book st b t a n).2))
          show findActive (add_book st b t a n).2 key = none
          rw [hst₁]; exact hkey
  | register_reader r n =>
      cases hres : (register_reader st r n).1 with
      | error e =>
          rcases register_reader_atomic st r n with h | h
          · rw [hres] at h; simp [errKind?] at h
          · show findActive (register_reader st r n).2 key = none
            rw [h]; exact hkey
      | ok rd =>
          obtain ⟨_, _, _, hst₁⟩ := register_reader_ok (by rw [← hres] :
            register_reader st r n = (.ok rd, (register_reader st r n).2))
          show findActive (register_reader st r n).2 key = none
          rw [hst₁]; exact hkey
  | get_book b =>
      show findActive (get_book st b).2 key = none
      rw [get_book_snd]; exact hkey
  | get_reader r =>
      show findActive (get_reader st r).2 key = none
      rw [get_reader_snd]; exact hkey
  | search_books q =>
      show findActive (search_books st q).2 key = none
      rw [search_books_snd]; exact hkey
  | borrow_book b r bd ld =>
      cases hres : (borrow_book st b r bd ld).1 with
      | error e =>
          rcases borrow_book_atomic st b r bd ld with h | h
          · rw [hres] at h; simp [errKind?] at h
          · show findActive (borrow_book st b r bd ld).2 key = none
            rw [h]; exact hkey
      | ok loan =>
          obtain ⟨book, _, _, _, _, _, _, _, _, _, hst₁⟩ :=
            borrow_book_ok (by rw [← hres] :
              borrow_book st b r bd ld = (.ok loan, (borrow_book st b r bd ld).2))
          show findActive (borrow_book st b r bd ld).2 key = none
          rw [hst₁]
          have hne : (pyStrip b, r) ≠ key := hop
          show (st.active_loans ++
            [((pyStrip b, r), st.loan_history.length)]).find?
              (fun e => e.1 == key) = none
          rw [List.find?_append]
          have h1 : st.active_loans.find? (fun e => e.1 == key) = none := hkey
          simp [h1, beq_iff_eq, hne]
  | return_book b r d =>
      cases hres : (return_book st b r d).1 with
      | error e =>
          rcases return_book_atomic st b r d with h | h
          · rw [hres] at h; simp [errKind?] at h
          · show findActive (return_book st b r d).2 key = none
            rw [h]; exact hkey
      | ok res =>
          rcases res with ⟨od, fine⟩
          obtain ⟨entry, _, _, _, _, _, hst₁⟩ :=
            return_book_ok (by rw [← hres] :
              return_book st b r d = (.ok (od, fine), (return_book st b r d).2))
          show findActive (return_book st b r d).2 key = none
          rw [hst₁]
          refine List.find?_eq_none.2 ?_
          intro e he
          exact List.find?_eq_none.1 hkey e (List.mem_of_mem_eraseP he)
  | calculate_fine d1 d2 => exact hkey
  | get_active_loans => exact hkey
  | get_reader_active_loans r =>
      show findActive (get_reader_active_loans st r).2 key = none
      rw [get_reader_active_loans_snd]; exact hkey
  | get_loan_history => exact hkey

lemma returned_stays_applyOp {st : LibraryState} (wf : WF st) {i : Nat} {l : Loan}
    (hi : st.loan_history[i]? = some l) (hret : l.returned_date.isSome = true)
    (op : Op) : (applyOp st op).loan_history[i]? = some l := by
  have hilt : i < st.loan_history.length := by
    by_contra hge
    rw [List.getElem?_eq_none (by omega)] at hi
    exact Option.noConfusion hi
  cases op with
  | add_book b t a n =>
      cases hres : (add_book st b t a n).1 with
      | error e =>
          rcases add_book_atomic st b t a n with h | h
          · rw [hres] at h; simp [errKind?] at h
          · show (add_book st b t a n).2.loan_history[i]? = some l
            rw [h]; exact hi
      | ok bk =>
          obtain ⟨_, _, _, _, hst₁⟩ := add_book_ok (by rw [← hres] :
            add_book st b t a n = (.ok bk, (add_book st b t a n).2))
          show (add_book st b t a n).2.loan_history[i]? = some l
          rw [hst₁]; exact hi
  | register_reader r n =>
      cases hres : (register_reader st r n).1 with
      | error e =>
          rcases register_reader_atomic st r n with h | h
          · rw [hres] at h; simp [errKind?] at h
          · show (register_reader st r n).2.loan_history[i]? = some l
            rw [h]; exact hi
      | ok rd =>
          obtain ⟨_, _, _, hst₁⟩ := register_reader_ok (by rw [← hres] :
            register_reader st r n = (.ok rd, (register_reader st r n).2))
          show (register_reader st r n).2.loan_history[i]? = some l
          rw [hst₁]; exact hi
  | get_book b =>
      show (get_book st b).2.loan_history[i]? = some l
      rw [get_book_snd]; exact hi
  | get_reader r =>
      show (get_reader st r).2.loan_history[i]? = some l
      rw [get_reader_snd]; exact hi
  | search_books q =>
      show (search_books st q).2.loan_history[i]? = some l
      rw [search_books_snd]; exact hi
  | borrow_book b r bd ld =>
      cases hres : (borrow_book st b r bd ld).1 with
      | error e =>
          rcases borrow_book_atomic st b r bd ld with h | h
          · rw [hres] at h; simp [errKind?] at h
          · show (borrow_book st b r bd ld).2.loan_history[i]? = some l
            rw [h]; exact hi
      | ok loan =>
          obtain ⟨book, _, _, _, _, _, _, _, _, _, hst₁⟩ :=
            borrow_book_ok (by rw [← hres] :
              borrow_book st b r bd ld = (.ok loan, (borrow_book st b r bd ld).2))
          show (borrow_book st b r bd ld).2.loan_history[i]? = some l
          rw [hst₁]
          show (st.loan_history ++ _)[i]? = some l
          rw [List.getElem?_append, if_pos hilt]
          exact hi
  | return_book b r d =>
      cases hres : (return_book st b r d).1 with
      | error e =>
          rcases return_book_atomic st b r d with h | h
          · rw [hres] at h; simp [errKind?] at h
          · show (return_book st b r d).2.loan_history[i]? = some l
            rw [h]; exact hi
      | ok res =>
          rcases res with ⟨od, fine⟩
          obtain ⟨entry, _, _, hentry, _, _, hst₁⟩ :=
            return_book_ok (by rw [← hres] :
              return_book st b r d = (.ok (od, fine), (return_book st b r d).2))
          show (return_book st b r d).2.loan_history[i]? = some l
          rw [hst₁]
          obtain ⟨hmem, _⟩ := findActive_some hentry
          obtain ⟨_, _, hLret⟩ := wf.entry_loan entry hmem
          have hne : entry.2 ≠ i := by
            intro hcon
            have : loanOf st entry = l := by
              simp only [loanOf, hcon]
              rw [List.getD_eq_getElem?_getD, hi]
              rfl
            rw [this] at hLret
            rw [hLret] at hret
            simp [Option.isSome] at hret
          show (st.loan_history.set entry.2 _)[i]? = some l
          rw [List.getElem?_set_ne hne]
          exact hi
  | calculate_fine d1 d2 => exact hi
  | get_active_loans => exact hi
  | get_reader_active_loans r =>
      show (get_reader_active_loans st r).2.loan_history[i]? = some l
      rw [get_reader_active_loans_snd]; exact hi
  | get_loan_history => exact hi

lemma key_not_mem_runOps {st : LibraryState} {key : String × String}
    (hkey : findActive st key = none) {ops : List Op}
    (hops : ∀ op ∈ ops, notBorrowOf key op) :
    findActive (runOps st ops) key = none := by
  induction ops generalizing st with
  | nil => exact hkey
  | cons op ops ih =>
      exact ih (key_not_mem_applyOp hkey op (hops op (by simp)))
        (fun o ho => hops o (by simp [ho]))

lemma returned_stays_runOps {st : LibraryState} (wf : WF st) {i : Nat} {l : Loan}
    (hi : st.loan_history[i]? = some l) (hret : l.returned_date.isSome = true)
    (ops : List Op) : (runOps st ops).loan_history[i]? = some l := by
  induction ops generalizing st with
  | nil => exact hi
  | cons op ops ih =>
      exact ih (WF_applyOp wf op) (returned_stays_applyOp wf hi hret op)

lemma isPrefixChars_iff (p s : List Char) :
    isPrefixChars p s = true ↔ ∃ rest, s = p ++ rest := by
  induction p generalizing s with
  | nil => simp [isPrefixChars]
  | cons a as ih =>
      cases s with
      | nil =>
          simp [isPrefixChars]
      | cons b bs =>
          simp only [isPrefixChars, Bool.and_eq_true, beq_iff_eq, ih,
            List.cons_append, List.cons.injEq]
          constructor
          · rintro ⟨hab, rest, hrest⟩
            exact ⟨rest, hab.symm, hrest⟩
          · rintro ⟨rest, hab, hrest⟩
            exact ⟨hab.symm, rest, hrest⟩

lemma containsSub_iff (pat s : List Char) :
    containsSub pat s = true ↔ ∃ pre post, s = pre ++ pat ++ post := by
  induction s with
  | nil =>
      simp only [containsSub, List.isEmpty_iff]
      constructor
      · intro h
        exact ⟨[], [], by simp [h]⟩
      · rintro ⟨pre, post, hsplit⟩
        rcases List.append_eq_nil.1 (List.append_eq_nil.1 hsplit.symm).1 with ⟨h1, h2⟩
        exact h2
  | cons b bs ih =>
      simp only [containsSub, Bool.or_eq_true, isPrefixChars_iff, ih]
      constructor
      · rintro (⟨rest, hrest⟩ | ⟨pre, post, hsplit⟩)
        · exact ⟨[], rest, by simpa using hrest⟩
        · exact ⟨b :: pre, post, by simp [hsplit]⟩
      · rintro ⟨pre, post, hsplit⟩
        cases pre with
        | nil =>
            left
            exact ⟨post, by simpa using hsplit⟩
        | cons c cs =>
            right
            simp only [List.cons_append, List.cons.injEq] at hsplit
            exact ⟨cs, post, hsplit.2⟩

lemma strContains_iff (haystack needle : String) :
    strContains haystack needle = true ↔
      ∃ pre post, haystack.data = pre ++ needle.data ++ post :=
  containsSub_iff needle.data haystack.data

lemma set_concat_length {α : Type} (l : List α) (a b : α) :
    (l ++ [a]).set l.length b = l ++ [b] := by
  simp [List.set_append]

lemma get_book_of_found {st : LibraryState} {b : String} {book : Book}
    (hb : pyStrip b ≠ "") (hf : findBook st (pyStrip b) = some book) :
    get_book st b = (.ok book, st) := by
  unfold get_book
  rw [require_ok _ hb]
  dsimp only
  rw [hf]

lemma get_book_of_missing {st : LibraryState} {b : String}
    (hb : pyStrip b ≠ "") (hf : findBook st (pyStrip b) = none) :
    get_book st b =
      (.error (.notFoundError ("Book with id " ++ pyStrip b ++ " not found")), st) := by
  unfold get_book
  rw [require_ok _ hb]
  dsimp only
  rw [hf]

lemma get_reader_of_found {st : LibraryState} {r : String} {rd : Reader}
    (hr : pyStrip r ≠ "") (hf : findReader st (pyStrip r) = some rd) :
    get_reader st r = (.ok rd, st) := by
  unfold get_reader
  rw [require_ok _ hr]
  dsimp only
  rw [hf]

lemma get_reader_of_missing {st : LibraryState} {r : String}
    (hr : pyStrip r ≠ "") (hf : findReader st (pyStrip r) = none) :
    get_reader st r =
      (.error (.notFoundError ("Reader with id " ++ pyStrip r ++ " not found")), st) := by
  unfold get_reader
  rw [require_ok _ hr]
  dsimp only
  rw [hf]

lemma activeLoanCountFor_eq {st : LibraryState} (wf : WF st) (bid : String) :
    activeLoanCountFor st bid = countFor st.active_loans bid := by
  unfold activeLoanCountFor get_active_loans countFor
  rw [List.filter_map, List.length_map]
  congr 2
  apply List.filter_congr
  intro e he
  simp only [Function.comp]
  rw [(wf.entry_loan e he).1]

/-! ### Claim theorems -/

/-- C7: `calculate_fine(due_date, return_date)` mutates no state and returns
`round(max(0, days from due to return) * fine_per_day, 2)`; 0 days overdue give
0.0 at any rate and 3 days at rate 10.0 give 30.0 (the spec's dates 2026-04-10
and 2026-04-13 are 0 resp. 3 days apart); and `return_book` computes
`overdue_days` and `fine_amount` by the same formula against the due date of
the loan it found. -/
theorem calculate_fine_spec :
    (∀ (st : LibraryState) (due ret : Int),
      calculate_fine st due ret =
        (pyRound2 (((max (ret - due) 0 : Int) : ℚ) * st.fine_per_day), st)) ∧
    (∀ st : LibraryState, (calculate_fine st 0 0).1 = 0) ∧
    (∀ st : LibraryState, st.fine_per_day = 10 →
      (calculate_fine st 0 3).1 = 30) ∧
    (∀ (st : LibraryState) (b r : String) (d : Int),
      errKind? (return_book st b r d).1 = none →
      ∃ e, findActive st (pyStrip b, pyStrip r) = some e ∧
        (return_book st b r d).1 =
          .ok (max (d - (loanOf st e).due_date) 0,
            (calculate_fine st (loanOf st e).due_date d).1)) := by
  refine ⟨?_, ?_, ?_, ?_⟩
  · intro st due ret
    rfl
  · intro st
    show pyRound2 (((max ((0:Int) - 0) 0 : Int) : ℚ) * st.fine_per_day) = 0
    norm_num [pyRound2]
  · intro st h
    show pyRound2 (((max ((3:Int) - 0) 0 : Int) : ℚ) * st.fine_per_day) = 30
    rw [h]
    norm_num [pyRound2]
  · intro st b r d h
    cases hres : (return_book st b r d).1 with
    | error e => rw [hres] at h; simp [errKind?] at h
    | ok res =>
        rcases res with ⟨od, fine⟩
        obtain ⟨entry, hbne, hrne, hentry, hod, hfine, hst₁⟩ :=
          return_book_ok (by rw [← hres] : return_book st b r d =
            (.ok (od, fine), (return_book st b r d).2))
        refine ⟨entry, hentry, ?_⟩
        rw [hfine, hod]
        rfl

/-- C8: `search_books` rejects queries that are empty after trimming with a
ValidationError; otherwise it returns exactly the stored books whose
lower-cased title or author contains the lower-cased trimmed query as a
substring, in the insertion order of the book collection (a sublist of the
stored order); searching "prAgMaTic" in the demo data returns exactly the
book "The Pragmatic Programmer". -/
theorem search_books_spec :
    (∀ (st : LibraryState) (q : String), pyStrip q = "" →
      search_books st q =
        (.error (.validationError "query must be non-empty"), st)) ∧
    (∀ (st : LibraryState) (q : String) (res : List Book),
      (search_books st q).1 = .ok res →
      res.Sublist st.books ∧
      ∀ bk, bk ∈ res ↔ bk ∈ st.books ∧
        ((∃ pre post, (pyLower bk.title).data =
            pre ++ (pyLower (pyStrip q)).data ++ post) ∨
         (∃ pre post, (pyLower bk.author).data =
            pre ++ (pyLower (pyStrip q)).data ++ post))) ∧
    ((search_books demoState "prAgMaTic").1 =
      .ok [{ book_id := "B2", title := "The Pragmatic Programmer",
             author := "Andrew Hunt", total_copies := 1,
             available_copies := 1 }]) := by
  refine ⟨?_, ?_, by decide⟩
  · intro st q hq
    unfold search_books
    rw [require_err _ hq]
    rfl
  · intro st q res hres
    unfold search_books at hres
    by_cases hq : pyStrip q = ""
    · rw [require_err _ hq] at hres
      exact absurd hres (by simp)
    · rw [require_ok _ hq] at hres
      dsimp only at hres
      have hres' : res = st.books.filter (fun book =>
          strContains (pyLower book.title) (pyLower (pyStrip q)) ||
          strContains (pyLower book.author) (pyLower (pyStrip q))) := by
        simpa using hres.symm
      subst hres'
      refine ⟨List.filter_sublist _, ?_⟩
      intro bk
      simp only [List.mem_filter, Bool.or_eq_true, strContains_iff]

/-- C9: every public operation is atomic on error — whenever one of the eight
listed operations fails with one of the four error kinds, the state it leaves
behind is exactly the state it was called in (the pure lookups never change
the state at all, failing or not). -/
theorem ops_atomic_on_error :
    (∀ (st : LibraryState) (b t a : String) (n : Int) (k : ErrKind),
      errKind? (add_book st b t a n).1 = some k → (add_book st b t a n).2 = st) ∧
    (∀ (st : LibraryState) (r nm : String) (k : ErrKind),
      errKind? (register_reader st r nm).1 = some k →
        (register_reader st r nm).2 = st) ∧
    (∀ (st : LibraryState) (b : String), (get_book st b).2 = st) ∧
    (∀ (st : LibraryState) (r : String), (get_reader st r).2 = st) ∧
    (∀ (st : LibraryState) (q : String), (search_books st q).2 = st) ∧
    (∀ (st : LibraryState) (b r : String) (bd ld : Int) (k : ErrKind),
      errKind? (borrow_book st b r bd ld).1 = some k →
        (borrow_book st b r bd ld).2 = st) ∧
    (∀ (st : LibraryState) (b r : String) (d : Int) (k : ErrKind),
      errKind? (return_book st b r d).1 = some k → (return_book st b r d).2 = st) ∧
    (∀ (st : LibraryState) (r : String), (get_reader_active_loans st r).2 = st) := by
  refine ⟨?_, ?_, get_book_snd, get_reader_snd, search_books_snd, ?_, ?_,
    get_reader_active_loans_snd⟩
  · intro st b t a n k h
    rcases add_book_atomic st b t a n with h2 | h2
    · rw [h] at h2; exact Option.noConfusion h2
    · exact h2
  · intro st r nm k h
    rcases register_reader_atomic st r nm with h2 | h2
    · rw [h] at h2; exact Option.noConfusion h2
    · exact h2
  · intro st b r bd ld k h
    rcases borrow_book_atomic st b r bd ld with h2 | h2
    · rw [h] at h2; exact Option.noConfusion h2
    · exact h2
  · intro st b r d k h
    rcases return_book_atomic st b r d with h2 | h2
    · rw [h] at h2; exact Option.noConfusion h2
    · exact h2

/-- C4: in every state reachable from a fresh manager by public calls,
every stored book satisfies `0 ≤ available_copies ≤ total_copies`. -/
theorem available_copies_bounds (st : LibraryState) (h : Reachable st) :
    ∀ bk ∈ st.books,
      0 ≤ bk.available_copies ∧ bk.available_copies ≤ bk.total_copies := by
  have wf := h.wf
  intro bk hbk
  have hc := wf.conservation bk hbk
  have ha := wf.avail_nonneg bk hbk
  have hcnt : 0 ≤ countFor st.active_loans bk.book_id := Int.natCast_nonneg _
  exact ⟨ha, by omega⟩

/-- C10 (implicit conservation): in every reachable state, for every stored
book, `available_copies` plus the number of active loans whose `book_id` is
that book's id equals `total_copies`. -/
theorem conservation_of_copies (st : LibraryState) (h : Reachable st) :
    ∀ bk ∈ st.books,
      bk.available_copies + activeLoanCountFor st bk.book_id =
        bk.total_copies := by
  have wf := h.wf
  intro bk hbk
  rw [activeLoanCountFor_eq wf]
  exact wf.conservation bk hbk

/-- C1: with well-formed (already-trimmed, non-empty) ids, `borrow_book`
checks its preconditions in order — `loan_days > 0` (ValidationError), book
exists (NotFoundError), reader exists (NotFoundError), copies available
(BusinessRuleError), no active loan for the pair (BusinessRuleError) — raising
at the first failure and leaving the state unchanged, and otherwise returns
the created loan with `due_date = borrow_date + loan_days`. -/
theorem borrow_book_checks_in_order (st : LibraryState)
    (book_id reader_id : String) (bd ld : Int)
    (hb : pyStrip book_id = book_id) (hbne : book_id ≠ "")
    (hr : pyStrip reader_id = reader_id) (hrne : reader_id ≠ "") :
    (ld ≤ 0 →
      borrow_book st book_id reader_id bd ld =
        (.error (.validationError "loan_days must be greater than 0"), st)) ∧
    (0 < ld → findBook st book_id = none →
      borrow_book st book_id reader_id bd ld =
        (.error (.notFoundError
          ("Book with id " ++ book_id ++ " not found")), st)) ∧
    (∀ book, 0 < ld → findBook st book_id = some book →
      findReader st reader_id = none →
      borrow_book st book_id reader_id bd ld =
        (.error (.notFoundError
          ("Reader with id " ++ reader_id ++ " not found")), st)) ∧
    (∀ book rd, 0 < ld → findBook st book_id = some book →
      findReader st reader_id = some rd → book.available_copies ≤ 0 →
      borrow_book st book_id reader_id bd ld =
        (.error (.businessRuleError "No available copies for this book"), st)) ∧
    (∀ book rd entry, 0 < ld → findBook st book_id = some book →
      findReader st reader_id = some rd → 0 < book.available_copies →
      findActive st (book_id, reader_id) = some entry →
      borrow_book st book_id reader_id bd ld =
        (.error (.businessRuleError "Reader already has this book on loan"),
          st)) ∧
    (∀ book rd, 0 < ld → findBook st book_id = some book →
      findReader st reader_id = some rd → 0 < book.available_copies →
      findActive st (book_id, reader_id) = none →
      (borrow_book st book_id reader_id bd ld).1 =
        .ok { book_id := book_id, reader_id := reader_id, borrow_date := bd,
              due_date := bd + ld, returned_date := none }) := by
  have hbs : pyStrip book_id ≠ "" := by rw [hb]; exact hbne
  have hrs : pyStrip reader_id ≠ "" := by rw [hr]; exact hrne
  refine ⟨?_, ?_, ?_, ?_, ?_, ?_⟩
  · intro h
    unfold borrow_book
    rw [if_pos h]
  · intro hld hfind
    unfold borrow_book
    rw [if_neg (by omega)]
    rw [get_book_of_missing hbs (by rw [hb]; exact hfind)]
    dsimp only
    rw [hb]
  · intro book hld hfind hrfind
    unfold borrow_book
    rw [if_neg (by omega)]
    rw [get_book_of_found hbs (by rw [hb]; exact hfind)]
    dsimp only
    rw [get_reader_of_missing hrs (by rw [hr]; exact hrfind)]
    dsimp only
    rw [hr]
  · intro book rd hld hfind hrfind hav
    unfold borrow_book
    rw [if_neg (by omega)]
    rw [get_book_of_found hbs (by rw [hb]; exact hfind)]
    dsimp only
    rw [get_reader_of_found hrs (by rw [hr]; exact hrfind)]
    dsimp only
    rw [if_pos hav]
  · intro book rd entry hld hfind hrfind hav hactive
    have hbid : book.book_id = book_id := (findBook_some hfind).2
    unfold borrow_book
    rw [if_neg (by omega)]
    rw [get_book_of_found hbs (by rw [hb]; exact hfind)]
    dsimp only
    rw [get_reader_of_found hrs (by rw [hr]; exact hrfind)]
    dsimp only
    rw [if_neg (by omega), hbid, hactive]
    rfl
  · intro book rd hld hfind hrfind hav hactive
    have hbid : book.book_id = book_id := (findBook_some hfind).2
    unfold borrow_book
    rw [if_neg (by omega)]
    rw [get_book_of_found hbs (by rw [hb]; exact hfind)]
    dsimp only
    rw [get_reader_of_found hrs (by rw [hr]; exact hrfind)]
    dsimp only
    rw [if_neg (by omega), hbid, hactive]
    rfl

/-- C6: on any reachable state, once `return_book` succeeds for a pair,
`return_book` for the same pair fails with a BusinessRuleError after any
sequence of further public calls that contains no `borrow_book` inserting that
pair's key, and every loan already marked returned keeps its `returned_date`
unchanged throughout (Active → Returned is irreversible). -/
theorem double_return_fails (st : LibraryState) (b r : String) (d : Int)
    (hreach : Reachable st)
    (hok : errKind? (return_book st b r d).1 = none)
    (ops : List Op) (hops : ∀ op ∈ ops, notBorrowOf (pyStrip b, pyStrip r) op)
    (d' : Int) :
    errKind? (return_book (runOps (return_book st b r d).2 ops) b r d').1 =
      some ErrKind.businessRuleE ∧
    ∀ (i : Nat) (l : Loan),
      (return_book st b r d).2.loan_history[i]? = some l →
      l.returned_date.isSome = true →
      (runOps (return_book st b r d).2 ops).loan_history[i]? = some l := by
  have wf := hreach.wf
  cases hres : (return_book st b r d).1 with
  | error e => rw [hres] at hok; simp [errKind?] at hok
  | ok res =>
      rcases res with ⟨od, fine⟩
      obtain ⟨entry, hbne, hrne, hentry, hod, hfine, hst₁⟩ :=
        return_book_ok (by rw [← hres] : return_book st b r d =
          (.ok (od, fine), (return_book st b r d).2))
      have wf₁ : WF (return_book st b r d).2 := WF_return_book wf b r d
      have hkey₁ : findActive (return_book st b r d).2
          (pyStrip b, pyStrip r) = none := by
        rw [hst₁]
        refine List.find?_eq_none.2 ?_
        intro e he
        have := eraseP_key_not_mem wf.keys_nodup hentry e he
        simpa [beq_iff_eq] using this
      have hkeyF : findActive (runOps (return_book st b r d).2 ops)
          (pyStrip b, pyStrip r) = none := key_not_mem_runOps hkey₁ hops
      constructor
      · generalize hfin : runOps (return_book st b r d).2 ops = fin at hkeyF ⊢
        unfold return_book
        rw [require_ok _ hbne]
        dsimp only
        rw [require_ok _ hrne]
        dsimp only
        rw [hkeyF]
        rfl
      · intro i l hi hrl
        exact returned_stays_runOps wf₁ hi hrl ops

/-- C2 is a code bug: `borrow_book` stores the active-loan key and the Loan
record with the *raw* `reader_id` (line 136/142 of `library_manager.py`),
against the spec's rule that ids are trimmed before every lookup or creation.
Evaluated on the demo data: borrowing with reader id " R1" (trailing space)
succeeds, but returning with the trimmed id "R1" then fails with
BusinessRuleError and `get_reader_active_loans("R1")` omits the loan. -/
theorem untrimmed_reader_key_breaks_return :
    Reachable demoState ∧
    errKind? (borrow_book demoState "B1" " R1" 0 7).1 = none ∧
    errKind? (return_book (borrow_book demoState "B1" " R1" 0 7).2
      "B1" "R1" 5).1 = some ErrKind.businessRuleE ∧
    (get_reader_active_loans (borrow_book demoState "B1" " R1" 0 7).2 "R1").1 =
      .ok [] := by
  refine ⟨⟨10, initState 10, demoOps, rfl, rfl⟩, by decide, by decide, by decide⟩

/-- C3 is violated by the same code bug: after borrowing "B1" for "R1" and
then for " R1" (both succeed, because the raw reader ids differ), the
reachable state holds two active loans whose trimmed (book, reader) pairs are
both ("B1", "R1"). -/
theorem duplicate_trimmed_pair_active :
    Reachable (borrow_book (borrow_book demoState "B1" "R1" 0 7).2
      "B1" " R1" 0 7).2 ∧
    errKind? (borrow_book demoState "B1" "R1" 0 7).1 = none ∧
    errKind? (borrow_book (borrow_book demoState "B1" "R1" 0 7).2
      "B1" " R1" 0 7).1 = none ∧
    ((borrow_book (borrow_book demoState "B1" "R1" 0 7).2
        "B1" " R1" 0 7).2.active_loans.map
      (fun e => (pyStrip e.1.1, pyStrip e.1.2))) =
      [("B1", "R1"), ("B1", "R1")] := by
  refine ⟨⟨10, initState 10,
    demoOps ++ [.borrow_book "B1" "R1" 0 7, .borrow_book "B1" " R1" 0 7],
    rfl, by decide⟩, by decide, by decide, by decide⟩

/-- C5 as stated is false on the code: with reader id " R1" (trailing space),
`borrow_book` succeeds and a subsequent `return_book` with the *same* raw
arguments succeeds too — but the return matches the trimmed key, hence returns
the earlier loan of reader "R1": the loan the borrow created (history index 1)
keeps `returned_date = none`, and its raw pair is still in the active index. -/
theorem round_trip_raw_pair_counterexample :
    Reachable demoBorrowed ∧
    errKind? (borrow_book demoBorrowed "B1" " R1" 0 7).1 = none ∧
    (borrow_book demoBorrowed "B1" " R1" 0 7).2.loan_history.length = 2 ∧
    errKind? (return_book (borrow_book demoBorrowed "B1" " R1" 0 7).2
      "B1" " R1" 5).1 = none ∧
    ((return_book (borrow_book demoBorrowed "B1" " R1" 0 7).2
        "B1" " R1" 5).2.loan_history.getD 1 default).returned_date = none ∧
    (findActive (return_book (borrow_book demoBorrowed "B1" " R1" 0 7).2
        "B1" " R1" 5).2 ("B1", " R1")).isSome = true := by
  refine ⟨⟨10, initState 10, demoOps ++ [.borrow_book "B1" "R1" 0 7], rfl,
    by decide⟩, by decide, by decide, by decide, by decide, by decide⟩

/-- C5 amended: when the reader id carries no surrounding whitespace
(`pyStrip r = r`), a successful `borrow_book` followed by `return_book` for
the same pair succeeds and restores the book collection (hence
`available_copies`) to its pre-borrow value, removes the pair from the
active-loan index (which returns to its pre-borrow contents), and keeps the
borrow's loan in the history with `returned_date` set to the return date. -/
theorem round_trip_restores_state (st : LibraryState) (b r : String)
    (bd ld rd : Int) (hr : pyStrip r = r) (loan : Loan) (st₁ : LibraryState)
    (hb : borrow_book st b r bd ld = (.ok loan, st₁)) :
    errKind? (return_book st₁ b r rd).1 = none ∧
    (return_book st₁ b r rd).2.books = st.books ∧
    findActive (return_book st₁ b r rd).2 (pyStrip b, r) = none ∧
    (return_book st₁ b r rd).2.loan_history =
      st.loan_history ++ [{ loan with returned_date := some rd }] ∧
    (return_book st₁ b r rd).2.active_loans = st.active_loans := by
  obtain ⟨book, hld, hbne, hfb, hbid, hrex, hrne, hav, hkey, hloan, hst₁⟩ :=
    borrow_book_ok hb
  subst hst₁
  have hkey_none : st.active_loans.find? (fun e => e.1 == (pyStrip b, r)) =
      none := hkey
  have hfind₁ : findActive { st with
      active_loans := st.active_loans ++
        [((pyStrip b, r), st.loan_history.length)]
      loan_history := st.loan_history ++ [loan]
      books := st.books.map (fun bk =>
        if bk.book_id == pyStrip b then
          { bk with available_copies := bk.available_copies - 1 }
        else bk) } (pyStrip b, r) =
      some ((pyStrip b, r), st.loan_history.length) := by
    show (st.active_loans ++ [((pyStrip b, r), st.loan_history.length)]).find?
      (fun e => e.1 == (pyStrip b, r)) = _
    rw [List.find?_append, hkey_none]
    simp
  have hloanOf : loanOf { st with
      active_loans := st.active_loans ++
        [((pyStrip b, r), st.loan_history.length)]
      loan_history := st.loan_history ++ [loan]
      books := st.books.map (fun bk =>
        if bk.book_id == pyStrip b then
          { bk with available_copies := bk.available_copies - 1 }
        else bk) } ((pyStrip b, r), st.loan_history.length) = loan := by
    show (st.loan_history ++ [loan]).getD st.loan_history.length default = loan
    exact getD_concat_length _ _ _
  have herase : (st.active_loans ++
      [((pyStrip b, r), st.loan_history.length)]).eraseP
        (fun e => e.1 == (pyStrip b, r)) = st.active_loans := by
    rw [List.eraseP_append_right _
      (fun e he => List.find?_eq_none.1 hkey_none e he)]
    simp [List.eraseP_cons_of_pos]
  unfold return_book
  rw [require_ok _ hbne]
  dsimp only
  rw [require_ok _ hrne, hr]
  dsimp only
  rw [hfind₁]
  dsimp only
  rw [hloanOf]
  refine ⟨rfl, ?_, ?_, ?_, ?_⟩
  · show (st.books.map _).map _ = st.books
    rw [List.map_map]
    refine (List.map_congr_left ?_).trans (List.map_id st.books)
    intro x hx
    simp only [Function.comp, id_eq]
    by_cases hxid : x.book_id == pyStrip b
    · rw [hloan]
      simp [hxid]
    · rw [hloan]
      simp [hxid]
  · show ((st.active_loans ++
      [((pyStrip b, r), st.loan_history.length)]).eraseP
        (fun e => e.1 == (pyStrip b, r))).find?
          (fun e => e.1 == (pyStrip b, r)) = none
    rw [herase]
    exact hkey_none
  · show (st.loan_history ++ [loan]).set st.loan_history.length _ =
      st.loan_history ++ [{ loan with returned_date := some rd }]
    exact set_concat_length _ _ _
  · show (st.active_loans ++
      [((pyStrip b, r), st.loan_history.length)]).eraseP
        (fun e => e.1 == (pyStrip b, r)) = st.active_loans
    exact herase

/-! ### Concrete witnesses -/

/-- Witness for C1 on the demo data: `loan_days = 0` fails with the
ValidationError leaving the state unchanged, and a valid borrow returns the
loan with `due_date = 3 + 7`. -/
theorem borrow_book_checks_in_order_witness :
    borrow_book demoState "B1" "R1" 3 0 =
      (.error (.validationError "loan_days must be greater than 0"),
        demoState) ∧
    (borrow_book demoState "B1" "R1" 3 7).1 =
      .ok { book_id := "B1", reader_id := "R1", borrow_date := 3,
            due_date := 10, returned_date := none } :=
  ⟨(borrow_book_checks_in_order demoState "B1" "R1" 3 0 (by decide)
      (by decide) (by decide) (by decide)).1 (by decide),
   (borrow_book_checks_in_order demoState "B1" "R1" 3 7 (by decide)
      (by decide) (by decide) (by decide)).2.2.2.2.2
     { book_id := "B1", title := "Clean Code", author := "Robert Martin",
       total_copies := 2, available_copies := 2 }
     { reader_id := "R1", full_name := "Ivan Petrov" }
     (by decide) (by decide) (by decide) (by decide) (by decide)⟩

/-- Witness for C4 at the demo state and book `B1`. -/
theorem available_copies_bounds_witness :
    0 ≤ bookB1.available_copies ∧
      bookB1.available_copies ≤ bookB1.total_copies :=
  available_copies_bounds demoState
    ⟨10, initState 10, demoOps, rfl, rfl⟩ bookB1 (by decide)

/-- Witness for C10 at the state after `R1` borrowed `B1`. -/
theorem conservation_of_copies_witness :
    bookB1b.available_copies + activeLoanCountFor demoBorrowed bookB1b.book_id =
      bookB1b.total_copies :=
  conservation_of_copies demoBorrowed
    ⟨10, initState 10, demoOps ++ [.borrow_book "B1" "R1" 0 7], rfl, by decide⟩
    bookB1b (by decide)

/-- Witness for C5 (amended) on the demo data. -/
theorem round_trip_restores_state_witness :
    errKind? (return_book demoBorrowed "B1" "R1" 5).1 = none ∧
    (return_book demoBorrowed "B1" "R1" 5).2.books = demoState.books ∧
    findActive (return_book demoBorrowed "B1" "R1" 5).2
      (pyStrip "B1", "R1") = none ∧
    (return_book demoBorrowed "B1" "R1" 5).2.loan_history =
      demoState.loan_history ++
        [{ book_id := "B1", reader_id := "R1", borrow_date := 0,
           due_date := 7, returned_date := some 5 }] ∧
    (return_book demoBorrowed "B1" "R1" 5).2.active_loans =
      demoState.active_loans :=
  round_trip_restores_state demoState "B1" "R1" 0 7 5 (by decide)
    { book_id := "B1", reader_id := "R1", borrow_date := 0, due_date := 7,
      returned_date := none }
    demoBorrowed (by decide)

/-- Witness for C6 on the demo data: after returning `B1`/`R1`, an immediate
second return of the same pair fails with a BusinessRuleError. -/
theorem double_return_fails_witness :
    errKind? (return_book
      (runOps (return_book demoBorrowed "B1" "R1" 9).2 []) "B1" "R1" 12).1 =
      some ErrKind.businessRuleE :=
  (double_return_fails demoBorrowed "B1" "R1" 9
    ⟨10, initState 10, demoOps ++ [.borrow_book "B1" "R1" 0 7], rfl, by decide⟩
    (by decide) [] (by simp) 12).1

/-- Witness for C7: the rate-10 concrete value and the `return_book`
agreement, both at concrete states. -/
theorem calculate_fine_spec_witness :
    (calculate_fine (initState 10) 0 3).1 = 30 ∧
    (∃ e, findActive demoBorrowed (pyStrip "B1", pyStrip "R1") = some e ∧
      (return_book demoBorrowed "B1" "R1" 9).1 =
        .ok (max (9 - (loanOf demoBorrowed e).due_date) 0,
          (calculate_fine demoBorrowed (loanOf demoBorrowed e).due_date 9).1)) :=
  ⟨calculate_fine_spec.2.2.1 (initState 10) rfl,
   calculate_fine_spec.2.2.2 demoBorrowed "B1" "R1" 9 (by decide)⟩

/-- Witness for C8: whitespace query fails; the "prAgMaTic" result list is a
sublist of the stored books and its member satisfies the substring
characterization. -/
theorem search_books_spec_witness :
    search_books demoState "   " =
      (.error (.validationError "query must be non-empty"), demoState) ∧
    ([bookB2] : List Book).Sublist demoState.books ∧
    (bookB2 ∈ ([bookB2] : List Book) ↔
      bookB2 ∈ demoState.books ∧
      ((∃ pre post, (pyLower bookB2.title).data =
          pre ++ (pyLower (pyStrip "prAgMaTic")).data ++ post) ∨
       (∃ pre post, (pyLower bookB2.author).data =
          pre ++ (pyLower (pyStrip "prAgMaTic")).data ++ post))) :=
  ⟨search_books_spec.1 demoState "   " (by decide),
   (search_books_spec.2.1 demoState "prAgMaTic" [bookB2] (by decide)).1,
   (search_books_spec.2.1 demoState "prAgMaTic" [bookB2] (by decide)).2
     bookB2⟩

/-- Witness for C9: one failing call of each kind leaves the demo state
untouched (and the pure lookups never touch it). -/
theorem ops_atomic_on_error_witness :
    (add_book demoState "B1" "X" "Y" 1).2 = demoState ∧
    (register_reader demoState "R1" "Z").2 = demoState ∧
    (get_book demoState "nope").2 = demoState ∧
    (get_reader demoState "nope").2 = demoState ∧
    (search_books demoState " ").2 = demoState ∧
    (borrow_book demoState "B1" "R1" 0 0).2 = demoState ∧
    (return_book demoState "B1" "R1" 0).2 = demoState ∧
    (get_reader_active_loans demoState "nope").2 = demoState :=
  ⟨ops_atomic_on_error.1 demoState "B1" "X" "Y" 1 .alreadyExistsE (by decide),
   ops_atomic_on_error.2.1 demoState "R1" "Z" .alreadyExistsE (by decide),
   ops_atomic_on_error.2.2.1 demoState "nope",
   ops_atomic_on_error.2.2.2.1 demoState "nope",
   ops_atomic_on_error.2.2.2.2.1 demoState " ",
   ops_atomic_on_error.2.2.2.2.2.1 demoState "B1" "R1" 0 0 .validationE
     (by decide),
   ops_atomic_on_error.2.2.2.2.2.2.1 demoState "B1" "R1" 0 .businessRuleE
     (by decide),
   ops_atomic_on_error.2.2.2.2.2.2.2 demoState "nope"⟩

end MiniLibrary
